import Mathlib

/-!
Verification of the plundrio download core: a shallow embedding of the
worker-pool download executor (`downloadWorker`, `downloadWithRetry`,
`downloadFile`, `isTransientError`, `monitorAria2cProgress`) and of the
dashboard presentation layer (`handleDashboardAPI`, `formatDuration`),
together with theorems settling the specification's claims about them.

Machine integers are modelled as `Int`/`Nat` (no overflow is relevant at the
sizes involved), Go `float64` values as `ℚ`, Go errors as an explicit error
datatype carrying the observable `Error()` text, and Go time instants as
rational second counts.
-/

namespace Plundrio

/-- Model of the Go errors observed by the download layer.

`cancelled fileName msg` models a `*DownloadError` with
`Type == "DownloadCancelled"` as built by
`NewDownloadCancelledError(state.Name, "download stopped")`; `plain text`
models every other error by its `Error()` text (the only attribute the code
under verification inspects on such errors). -/
inductive GoError where
  | cancelled (fileName : String) (msg : String)
  | plain (text : String)
deriving DecidableEq, Repr

/-- The worker's type assertion
`err.(*DownloadError); ok && downloadErr.Type == "DownloadCancelled"`. -/
def GoError.isDownloadCancelled : GoError → Bool
  | .cancelled _ _ => true
  | .plain _ => false

/-- Match a literal character sequence at the head of a list, returning the
rest on success. -/
def matchLit : List Char → List Char → Option (List Char)
  | [], l => some l
  | _ :: _, [] => none
  | c :: cs, d :: ds => if c = d then matchLit cs ds else none

/-- Does the pattern occur as a contiguous substring? (Go `strings.Contains`,
second argument to `matchLit` order: pattern first.) -/
def containsSub (pat : List Char) : List Char → Bool
  | [] => (matchLit pat []).isSome
  | l@(_ :: rest) => (matchLit pat l).isSome || containsSub pat rest

/-- Go `strings.Contains s pat`. -/
def strContains (s pat : String) : Bool :=
  containsSub pat.toList s.toList

/-- Translation of `isTransientError` (src/unnamed/part_000:100-126): `nil` is
not transient; a `DownloadCancelled` download error is not transient; exact
error texts "connection reset", "connection refused", "i/o timeout" are
transient; error texts containing "429", "503", "504" or "502" are transient;
everything else is permanent. The cancellation check precedes every use of the
error text, so the `Error()` text of a cancelled error is never inspected. -/
def isTransientError : Option GoError → Bool
  | none => false
  | some (.cancelled _ _) => false
  | some (.plain s) =>
    if s = "connection reset" ∨ s = "connection refused" ∨ s = "i/o timeout" then true
    else if strContains s "429" || strContains s "503" || strContains s "504"
        || strContains s "502" then true
    else false

/-- The classification stated by the spec, written from the spec's words:
false for cancellation errors; true exactly for connection reset, connection
refused, I/O timeout, or an HTTP status code 429, 502, 503 or 504 appearing in
the error text. -/
def isTransientErrorSpec : GoError → Prop
  | .cancelled _ _ => False
  | .plain s =>
    s = "connection reset" ∨ s = "connection refused" ∨ s = "i/o timeout" ∨
      strContains s "429" = true ∨ strContains s "502" = true ∨
      strContains s "503" = true ∨ strContains s "504" = true

/-- Translation of `formatDuration` (src/internal/server/dashboard.go:237-253).
Division and remainder are only reached on non-negative input, where Go's
truncating integer division agrees with Lean's. -/
def formatDuration (seconds : Int) : String :=
  if seconds < 0 then "unknown"
  else
    let h := seconds / 3600
    let m := (seconds % 3600) / 60
    let s := seconds % 60
    if h > 0 then toString h ++ "h" ++ toString m ++ "m"
    else if m > 0 then toString m ++ "m" ++ toString s ++ "s"
    else toString s ++ "s"

/-- Claim C3: `isTransientError` returns false for cancellation errors
(`DownloadError` of type `DownloadCancelled`), returns true exactly when the
error is connection reset, connection refused or i/o timeout, or when 429,
502, 503 or 504 appears in its error text, and returns false for every other
error (`nil` included). -/
theorem C3_transient_classification :
    isTransientError none = false ∧
    ∀ e : GoError, isTransientError (some e) = true ↔ isTransientErrorSpec e := by
  refine ⟨rfl, ?_⟩
  intro e
  cases e with
  | cancelled n m => simp [isTransientError, isTransientErrorSpec]
  | plain s =>
    simp only [isTransientError, isTransientErrorSpec]
    split_ifs with h1 h2
    · simp only [true_iff]
      tauto
    · simp only [true_iff]
      simp only [Bool.or_eq_true] at h2
      tauto
    · simp only [Bool.false_eq_true, false_iff]
      simp only [Bool.or_eq_true, not_or] at h1 h2 ⊢
      push_neg
      tauto

/-- The terminal result of `downloadWithRetry` (src/unnamed/part_000:71-97):
`success` is a `nil` return; `cancelled e` is the unwrapped pass-through of a
`DownloadCancelled` error `e`; `permanent k e` is
`fmt.Errorf("permanent error on attempt %d: %w", k, e)`; `exhausted n last` is
`fmt.Errorf("failed after %d attempts, last error: %w", n, last)`. -/
inductive RetryOutcome where
  | success
  | cancelled (e : GoError)
  | permanent (attempt : Nat) (e : GoError)
  | exhausted (attempts : Nat) (lastErr : Option GoError)
deriving DecidableEq, Repr

/-- The loop body of `downloadWithRetry`: `fetch attempt` is the error (or
`none` for success) returned by `m.downloadFile(state)` on that attempt;
`remaining` is the number of loop iterations still allowed (`maxRetries`
initially); `lastErr` tracks the Go local of the same name. The second
component of the result records the backoff sleeps performed, in order: the
loop sleeps `attempt` seconds after each transient error, even on the final
iteration. -/
def downloadWithRetryAux (fetch : Nat → Option GoError) :
    Nat → Nat → Option GoError → RetryOutcome × List Nat
  | _, 0, lastErr => (.exhausted 3 lastErr, [])
  | attempt, remaining + 1, lastErr =>
    match fetch attempt with
    | none => (.success, [])
    | some err =>
      if err.isDownloadCancelled then (.cancelled err, [])
      else if isTransientError (some err) then
        let r := downloadWithRetryAux fetch (attempt + 1) remaining (some err)
        (r.1, attempt :: r.2)
      else (.permanent attempt err, [])

/-- Translation of `downloadWithRetry` (src/unnamed/part_000:71-97) with
`maxRetries = 3`, abstracted over the per-attempt result of `downloadFile`.
Unused `lastErr` is `nil` at entry. -/
def downloadWithRetry (fetch : Nat → Option GoError) : RetryOutcome × List Nat :=
  downloadWithRetryAux fetch 1 3 none

/-- The per-outcome effects of one `downloadWorker` loop iteration
(src/unnamed/part_000:37-65): whether `m.activeFiles.Delete(job.FileID)` runs
in the worker, whether `m.handleFileFailure(job.TransferID)` is called, and
whether `m.handleFileCompletion(job.TransferID, job.FileID)` is called. -/
structure WorkerEffects where
  activeFileDeleted : Bool
  failureReported : Bool
  completionReported : Bool
deriving DecidableEq, Repr

/-- Translation of the error handling of `downloadWorker`
(src/unnamed/part_000:37-65): the worker type-asserts the returned error
against `*DownloadError` with type `DownloadCancelled`, which succeeds only
for the unwrapped pass-through of a cancellation (the permanent and exhausted
results are `fmt.Errorf` wrappers, not `*DownloadError` values). On success
the active-file entry is removed inside `handleFileCompletion`, not in the
worker itself. -/
def downloadWorkerHandle : RetryOutcome → WorkerEffects
  | .success => ⟨false, false, true⟩
  | .cancelled e =>
    if e.isDownloadCancelled then ⟨true, false, false⟩ else ⟨true, true, false⟩
  | .permanent _ _ => ⟨true, true, false⟩
  | .exhausted _ _ => ⟨true, true, false⟩

/-- A transient error is never a cancellation: `isTransientError` classifies
every `DownloadCancelled` error as non-transient. -/
theorem transient_not_cancelled (e : GoError)
    (h : isTransientError (some e) = true) : e.isDownloadCancelled = false := by
  cases e with
  | cancelled n m => simp [isTransientError] at h
  | plain s => rfl

theorem retryAux_step_success (fetch : Nat → Option GoError)
    (attempt remaining : Nat) (lastErr : Option GoError)
    (h : fetch attempt = none) :
    downloadWithRetryAux fetch attempt (remaining + 1) lastErr
      = (.success, []) := by
  simp [downloadWithRetryAux, h]

theorem retryAux_step_cancelled (fetch : Nat → Option GoError)
    (attempt remaining : Nat) (lastErr : Option GoError) (e : GoError)
    (h : fetch attempt = some e) (hc : e.isDownloadCancelled = true) :
    downloadWithRetryAux fetch attempt (remaining + 1) lastErr
      = (.cancelled e, []) := by
  simp [downloadWithRetryAux, h, hc]

theorem retryAux_step_transient (fetch : Nat → Option GoError)
    (attempt remaining : Nat) (lastErr : Option GoError) (e : GoError)
    (h : fetch attempt = some e) (ht : isTransientError (some e) = true) :
    downloadWithRetryAux fetch attempt (remaining + 1) lastErr
      = ((downloadWithRetryAux fetch (attempt + 1) remaining (some e)).1,
          attempt :: (downloadWithRetryAux fetch (attempt + 1) remaining (some e)).2) := by
  simp [downloadWithRetryAux, h, ht, transient_not_cancelled e ht]

theorem retryAux_step_permanent (fetch : Nat → Option GoError)
    (attempt remaining : Nat) (lastErr : Option GoError) (e : GoError)
    (h : fetch attempt = some e) (hc : e.isDownloadCancelled = false)
    (ht : isTransientError (some e) = false) :
    downloadWithRetryAux fetch attempt (remaining + 1) lastErr
      = (.permanent attempt e, []) := by
  simp [downloadWithRetryAux, h, hc, ht]

/-- A run of `downloadWithRetry` in which `downloadFile` reports the transient
error "connection reset" on attempts 1, 2 and 3 and would succeed on a fourth
attempt — the explicit input refuting claim C1 as stated. -/
def cexRetryFetch : Nat → Option GoError := fun k =>
  if k ≤ 3 then some (.plain "connection reset") else none

/-- Claim C1 as stated is false: after 3 consecutive transient errors a
subsequent successful attempt does not make `downloadWithRetry` return
success, because `maxRetries = 3` exhausts the loop at the 3rd consecutive
transient error; the run returns the exhausted-retry failure
("failed after 3 attempts") wrapping the last error, after backoff sleeps of
1, 2 and 3 seconds, and the 4th attempt never happens. -/
theorem C1_counterexample :
    isTransientError (cexRetryFetch 1) = true ∧
    isTransientError (cexRetryFetch 2) = true ∧
    isTransientError (cexRetryFetch 3) = true ∧
    cexRetryFetch 4 = none ∧
    (downloadWithRetry cexRetryFetch).1 ≠ RetryOutcome.success ∧
    downloadWithRetry cexRetryFetch
      = (.exhausted 3 (some (.plain "connection reset")), [1, 2, 3]) := by
  refine ⟨by decide, by decide, by decide, by decide, ?_, ?_⟩ <;> decide

/-- Claim C1 (amended): for every sequence of consecutive transient errors of
length at most 2 returned by `downloadFile`, a subsequent successful attempt
makes `downloadWithRetry` return success, sleeping `j` seconds after the j-th
transient attempt; and a 3rd consecutive transient error exhausts the retries,
returning the "failed after 3 attempts" failure wrapping the last underlying
error. -/
theorem C1_retry_amended (fetch : Nat → Option GoError) (n : Nat) (hn : n ≤ 2)
    (hpre : ∀ j, 1 ≤ j → j ≤ n → ∃ e, fetch j = some e ∧ isTransientError (some e) = true)
    (hsucc : fetch (n + 1) = none)
    (fetch2 : Nat → Option GoError) (e3 : GoError)
    (hpre2 : ∀ j, 1 ≤ j → j ≤ 3 → ∃ e, fetch2 j = some e ∧ isTransientError (some e) = true)
    (h3 : fetch2 3 = some e3) :
    downloadWithRetry fetch = (.success, (List.range n).map (· + 1)) ∧
    downloadWithRetry fetch2 = (.exhausted 3 (some e3), [1, 2, 3]) := by
  constructor
  · unfold downloadWithRetry
    interval_cases n
    · rw [retryAux_step_success fetch 1 2 none hsucc]
      rfl
    · obtain ⟨e1, he1, ht1⟩ := hpre 1 (by omega) (by omega)
      rw [retryAux_step_transient fetch 1 2 none e1 he1 ht1,
        retryAux_step_success fetch 2 1 (some e1) hsucc]
      rfl
    · obtain ⟨e1, he1, ht1⟩ := hpre 1 (by omega) (by omega)
      obtain ⟨e2, he2, ht2⟩ := hpre 2 (by omega) (by omega)
      rw [retryAux_step_transient fetch 1 2 none e1 he1 ht1,
        retryAux_step_transient fetch 2 1 (some e1) e2 he2 ht2,
        retryAux_step_success fetch 3 0 (some e2) hsucc]
      rfl
  · obtain ⟨e1, he1, ht1⟩ := hpre2 1 (by omega) (by omega)
    obtain ⟨e2, he2, ht2⟩ := hpre2 2 (by omega) (by omega)
    obtain ⟨e3x, he3x, ht3x⟩ := hpre2 3 (by omega) (by omega)
    rw [h3] at he3x
    injection he3x with hx
    subst hx
    unfold downloadWithRetry
    rw [retryAux_step_transient fetch2 1 2 none e1 he1 ht1,
      retryAux_step_transient fetch2 2 1 (some e1) e2 he2 ht2,
      retryAux_step_transient fetch2 3 0 (some e2) e3 h3 ht3x]
    rfl

/-- Concrete attempt sequences exercising `C1_retry_amended`: one transient
"i/o timeout" then success, and three consecutive "connection refused"
errors. -/
def witRetryFetchA : Nat → Option GoError := fun k =>
  if k = 1 then some (.plain "i/o timeout") else none

/-- Three consecutive transient errors, for the exhaustion half of the amended
claim C1. -/
def witRetryFetchB : Nat → Option GoError := fun _ =>
  some (.plain "connection refused")

/-- Witness for `C1_retry_amended` at the concrete attempt sequences
`witRetryFetchA` and `witRetryFetchB`. -/
theorem C1_retry_amended_witness :
    downloadWithRetry witRetryFetchA = (.success, (List.range 1).map (· + 1)) ∧
    downloadWithRetry witRetryFetchB
      = (.exhausted 3 (some (.plain "connection refused")), [1, 2, 3]) := by
  refine C1_retry_amended witRetryFetchA 1 (by decide) ?_ rfl
    witRetryFetchB (.plain "connection refused") ?_ rfl
  · intro j h1 h2
    obtain rfl : j = 1 := by omega
    exact ⟨.plain "i/o timeout", rfl, by decide⟩
  · intro j h1 h2
    exact ⟨.plain "connection refused", rfl, by decide⟩

/-- Claim C4: whenever `downloadFile` returns a `DownloadCancelled` error at
attempt `k` (each earlier attempt having failed transiently), the retry loop
returns that error immediately and unwrapped, with no backoff sleep at attempt
`k` (the performed sleeps are exactly those of attempts `1..k-1`); and the
worker then removes the file id from the active-files set without reporting a
failure to the coordinator. -/
theorem C4_cancellation_short_circuit (fetch : Nat → Option GoError)
    (k : Nat) (name msg : String) (h1 : 1 ≤ k) (h2 : k ≤ 3)
    (hpre : ∀ j, 1 ≤ j → j < k → ∃ e, fetch j = some e ∧ isTransientError (some e) = true)
    (hk : fetch k = some (.cancelled name msg)) :
    downloadWithRetry fetch
      = (.cancelled (.cancelled name msg), (List.range (k - 1)).map (· + 1)) ∧
    downloadWorkerHandle (.cancelled (.cancelled name msg))
      = ⟨true, false, false⟩ := by
  refine ⟨?_, rfl⟩
  unfold downloadWithRetry
  interval_cases k
  · rw [retryAux_step_cancelled fetch 1 2 none _ hk rfl]
    rfl
  · obtain ⟨e1, he1, ht1⟩ := hpre 1 (by omega) (by omega)
    rw [retryAux_step_transient fetch 1 2 none e1 he1 ht1,
      retryAux_step_cancelled fetch 2 1 (some e1) _ hk rfl]
    rfl
  · obtain ⟨e1, he1, ht1⟩ := hpre 1 (by omega) (by omega)
    obtain ⟨e2, he2, ht2⟩ := hpre 2 (by omega) (by omega)
    rw [retryAux_step_transient fetch 1 2 none e1 he1 ht1,
      retryAux_step_transient fetch 2 1 (some e1) e2 he2 ht2,
      retryAux_step_cancelled fetch 3 0 (some e2) _ hk rfl]
    rfl

/-- A run where attempt 1 fails transiently and attempt 2 is cancelled. -/
def witCancelFetch : Nat → Option GoError := fun k =>
  if k = 1 then some (.plain "connection reset")
  else some (.cancelled "movie.mkv" "download stopped")

/-- Witness for `C4_cancellation_short_circuit` at the concrete attempt
sequence `witCancelFetch` with the cancellation arriving on attempt 2. -/
theorem C4_cancellation_short_circuit_witness :
    downloadWithRetry witCancelFetch
      = (.cancelled (.cancelled "movie.mkv" "download stopped"),
          (List.range (2 - 1)).map (· + 1)) ∧
    downloadWorkerHandle (.cancelled (.cancelled "movie.mkv" "download stopped"))
      = ⟨true, false, false⟩ := by
  refine C4_cancellation_short_circuit witCancelFetch 2 "movie.mkv" "download stopped"
    (by decide) (by decide) ?_ rfl
  intro j hj1 hj2
  obtain rfl : j = 1 := by omega
  exact ⟨.plain "connection reset", rfl, by decide⟩

/-- Claim C5: a non-cancellation, non-transient error from `downloadFile` on
attempt `k` (each earlier attempt having failed transiently) makes
`downloadWithRetry` return immediately with the error wrapped as a permanent
error carrying the attempt number `k`, with no backoff sleep at attempt `k`
(the performed sleeps are exactly those of attempts `1..k-1`) and no further
attempt. -/
theorem C5_permanent_abort (fetch : Nat → Option GoError) (k : Nat) (e : GoError)
    (h1 : 1 ≤ k) (h2 : k ≤ 3)
    (hpre : ∀ j, 1 ≤ j → j < k → ∃ e2, fetch j = some e2 ∧ isTransientError (some e2) = true)
    (hk : fetch k = some e) (hc : e.isDownloadCancelled = false)
    (ht : isTransientError (some e) = false) :
    downloadWithRetry fetch
      = (.permanent k e, (List.range (k - 1)).map (· + 1)) := by
  unfold downloadWithRetry
  interval_cases k
  · rw [retryAux_step_permanent fetch 1 2 none e hk hc ht]
    rfl
  · obtain ⟨e1, he1, ht1⟩ := hpre 1 (by omega) (by omega)
    rw [retryAux_step_transient fetch 1 2 none e1 he1 ht1,
      retryAux_step_permanent fetch 2 1 (some e1) e hk hc ht]
    rfl
  · obtain ⟨e1, he1, ht1⟩ := hpre 1 (by omega) (by omega)
    obtain ⟨e2, he2, ht2⟩ := hpre 2 (by omega) (by omega)
    rw [retryAux_step_transient fetch 1 2 none e1 he1 ht1,
      retryAux_step_transient fetch 2 1 (some e1) e2 he2 ht2,
      retryAux_step_permanent fetch 3 0 (some e2) e hk hc ht]
    rfl

/-- A run where attempt 1 fails transiently (HTTP 503 in the error text) and
attempt 2 fails permanently. -/
def witPermanentFetch : Nat → Option GoError := fun k =>
  if k = 1 then some (.plain "HTTP 503 Service Unavailable")
  else some (.plain "file not found")

/-- Witness for `C5_permanent_abort` at the concrete attempt sequence
`witPermanentFetch` with the permanent error arriving on attempt 2. -/
theorem C5_permanent_abort_witness :
    downloadWithRetry witPermanentFetch
      = (.permanent 2 (.plain "file not found"), (List.range (2 - 1)).map (· + 1)) := by
  refine C5_permanent_abort witPermanentFetch 2 (.plain "file not found")
    (by decide) (by decide) ?_ rfl rfl (by decide)
  intro j hj1 hj2
  obtain rfl : j = 1 := by omega
  exact ⟨.plain "HTTP 503 Service Unavailable", rfl, by decide⟩

/-- The character class `[\d.]` of the speed capture group. -/
def isSpeedChar (c : Char) : Bool := c.isDigit || c = '.'

/-- The search `.*?(\d+)%` of the progress pattern: the lazy gap extends one
character at a time, and at each position the greedy `(\d+)` can only succeed
by taking the whole digit run (shorter prefixes end at a digit, not at `%`).
Returns the captured digits and the text after the `%`. -/
def findPercent : List Char → Option (List Char × List Char)
  | [] => none
  | l@(_ :: rest) =>
    if l.takeWhile Char.isDigit ≠ [] then
      match l.dropWhile Char.isDigit with
      | '%' :: after => some (l.takeWhile Char.isDigit, after)
      | _ => findPercent rest
    else findPercent rest

/-- The search `.*?DL:([\d.]+)(KiB|MiB|GiB)` of the progress pattern: at each
`DL:` occurrence the greedy `[\d.]+` must take the whole digit-and-dot run
(no unit starts with a digit or dot, so backtracking it never helps), followed
by one of the three units. Returns the captured speed text, the unit, and the
rest. -/
def findDL : List Char → Option (List Char × String × List Char)
  | [] => none
  | l@(_ :: rest) =>
    match matchLit ['D', 'L', ':'] l with
    | none => findDL rest
    | some after =>
      let sp := after.takeWhile isSpeedChar
      if sp = [] then findDL rest
      else
        let after2 := after.dropWhile isSpeedChar
        match matchLit ['K', 'i', 'B'] after2 with
        | some r => some (sp, "KiB", r)
        | none =>
          match matchLit ['M', 'i', 'B'] after2 with
          | some r => some (sp, "MiB", r)
          | none =>
            match matchLit ['G', 'i', 'B'] after2 with
            | some r => some (sp, "GiB", r)
            | none => findDL rest

/-- The search `.*?ETA:([^\]]+)\]` of the progress pattern: after each `ETA:`
the greedy `[^\]]+` must take everything up to the next `]` (shorter prefixes
end at a non-`]` character), which must be non-empty and followed by `]`. -/
def findETA : List Char → Option (List Char × List Char)
  | [] => none
  | l@(_ :: rest) =>
    match matchLit ['E', 'T', 'A', ':'] l with
    | none => findETA rest
    | some after =>
      let et := after.takeWhile (fun c => c ≠ ']')
      if et = [] then findETA rest
      else
        match after.dropWhile (fun c => c ≠ ']') with
        | ']' :: r => some (et, r)
        | _ => findETA rest

/-- The three lazy searches after `\[#\d+`, in sequence. Staged greedy search
agrees with full leftmost-first backtracking here: each stage's search region
is a suffix of the string, and each stage takes the earliest possible match,
so later stages search the largest possible region; if any global match
exists, this one does. -/
def matchRest (l : List Char) :
    Option (List Char × List Char × String × List Char) :=
  match findPercent l with
  | none => none
  | some (pd, r2) =>
    match findDL r2 with
    | none => none
    | some (sp, u, r3) =>
      match findETA r3 with
      | none => none
      | some (et, _) => some (pd, sp, u, et)

/-- Backtracking of the greedy `\d+` right after `\[#`: try consuming `k`
leading digits for `k` from the full run length down to 1 and run the rest of
the pattern after them, keeping the first success. -/
def tryDigitSplits (l : List Char) :
    Nat → Option (List Char × List Char × String × List Char)
  | 0 => none
  | k + 1 =>
    match matchRest (l.drop (k + 1)) with
    | some r => some r
    | none => tryDigitSplits l k

/-- Match the whole pattern
`\[#\d+.*?(\d+)%.*?DL:([\d.]+)(KiB|MiB|GiB).*?ETA:([^\]]+)\]` anchored at the
head of the list. -/
def matchProgressAt : List Char → Option (List Char × List Char × String × List Char)
  | '[' :: '#' :: rest =>
    let ds := rest.takeWhile Char.isDigit
    if ds = [] then none else tryDigitSplits rest ds.length
  | _ => none

/-- `FindStringSubmatch` of the progress pattern: the leftmost starting
position whose anchored match succeeds, scanned left to right
(src/unnamed/part_000:277,294). Returns the four capture groups: percent
digits, speed text, unit, and ETA text. -/
def findProgress : List Char → Option (List Char × List Char × String × List Char)
  | [] => none
  | l@(_ :: rest) =>
    match matchProgressAt l with
    | some r => some r
    | none => findProgress rest

/-- Decimal digits to a natural number. -/
def digitsToNat (l : List Char) : Nat :=
  l.foldl (fun a c => a * 10 + (c.toNat - 48)) 0

/-- Go `strconv.ParseFloat` restricted to the texts the capture group
`([\d.]+)` can produce (digits and dots): a single optional dot with at least
one digit parses as a decimal; anything else is a syntax error, and the code
ignores the error and keeps the zero value
(src/unnamed/part_000:296-297). Values are modelled as rationals. -/
def parseGoFloat (l : List Char) : ℚ :=
  if l.all (fun c => c.isDigit || c = '.') ∧ l.count '.' ≤ 1 ∧ l.any Char.isDigit then
    let ip := l.takeWhile Char.isDigit
    match l.dropWhile Char.isDigit with
    | '.' :: fp => mkRat (digitsToNat (ip ++ fp)) (10 ^ fp.length)
    | _ => mkRat (digitsToNat ip) 1
  else 0

/-- The structured result of parsing one aria2c progress line
(src/unnamed/part_000:294-308). -/
structure ProgressUpdate where
  percent : ℚ
  speedMBps : ℚ
  eta : String
deriving DecidableEq, Repr

/-- Translation of the per-line parsing of `monitorAria2cProgress`
(src/unnamed/part_000:294-308): match the progress pattern, parse the percent
and speed captures as floats, normalize the speed to MB/s (`KiB` divides by
1024, `GiB` multiplies by 1024, the `MiB` default is unchanged), and keep the
ETA text. -/
def monitorParseLine (line : String) : Option ProgressUpdate :=
  match findProgress line.toList with
  | none => none
  | some (pd, sp, u, et) =>
    let speed := parseGoFloat sp
    let speedMBps :=
      if u = "KiB" then speed / 1024
      else if u = "GiB" then speed * 1024
      else speed
    some ⟨parseGoFloat pd, speedMBps, String.mk et⟩

/-- Claim C6: the line `[#1 SIZE:1.2GiB/10.5GiB(11%) CN:16 DL:45.2MiB
ETA:3m12s]` parses to percent 11, speed 45.2 MB/s, eta "3m12s"; on every line
matching the progress pattern a KiB speed is divided by 1024, a GiB speed is
multiplied by 1024, and a MiB speed is unchanged; and a `DL:900KiB` speed
normalizes to 900/1024 MB/s, which rounds to 0.879 MB/s at the three decimal
places the spec displays. -/
theorem C6_progress_parsing :
    monitorParseLine "[#1 SIZE:1.2GiB/10.5GiB(11%) CN:16 DL:45.2MiB ETA:3m12s]"
      = some ⟨11, 452 / 10, "3m12s"⟩ ∧
    (∀ (line : String) pd sp u et, findProgress line.toList = some (pd, sp, u, et) →
      monitorParseLine line
        = some ⟨parseGoFloat pd,
            if u = "KiB" then parseGoFloat sp / 1024
            else if u = "GiB" then parseGoFloat sp * 1024
            else parseGoFloat sp,
            String.mk et⟩) ∧
    monitorParseLine "[#1 SIZE:1.2GiB/10.5GiB(11%) CN:16 DL:900KiB ETA:3m12s]"
      = some ⟨11, 900 / 1024, "3m12s"⟩ ∧
    round ((900 / 1024 : ℚ) * 1000) = 879 := by
  have hgen : ∀ (line : String) pd sp u et,
      findProgress line.toList = some (pd, sp, u, et) →
      monitorParseLine line
        = some ⟨parseGoFloat pd,
            if u = "KiB" then parseGoFloat sp / 1024
            else if u = "GiB" then parseGoFloat sp * 1024
            else parseGoFloat sp,
            String.mk et⟩ := by
    intro line pd sp u et h
    have h2 : findProgress line.data = some (pd, sp, u, et) := h
    simp [monitorParseLine, h2]
  have hp : parseGoFloat ['1', '1'] = 11 := by
    have h : parseGoFloat ['1', '1'] = mkRat 11 1 := by decide
    rw [h, Rat.mkRat_eq_div]
    norm_num
  refine ⟨?_, hgen, ?_, ?_⟩
  · have hraw : findProgress
        (String.toList "[#1 SIZE:1.2GiB/10.5GiB(11%) CN:16 DL:45.2MiB ETA:3m12s]")
        = some (['1', '1'], ['4', '5', '.', '2'], "MiB", ['3', 'm', '1', '2', 's']) := by
      decide
    have hs : parseGoFloat ['4', '5', '.', '2'] = 452 / 10 := by
      have h : parseGoFloat ['4', '5', '.', '2'] = mkRat 452 10 := by decide
      rw [h, Rat.mkRat_eq_div]
      norm_num
    rw [hgen _ _ _ _ _ hraw]
    simp [hp, hs]
  · have hraw : findProgress
        (String.toList "[#1 SIZE:1.2GiB/10.5GiB(11%) CN:16 DL:900KiB ETA:3m12s]")
        = some (['1', '1'], ['9', '0', '0'], "KiB", ['3', 'm', '1', '2', 's']) := by
      decide
    have hs : parseGoFloat ['9', '0', '0'] = 900 := by
      have h : parseGoFloat ['9', '0', '0'] = mkRat 900 1 := by decide
      rw [h, Rat.mkRat_eq_div]
      norm_num
    rw [hgen _ _ _ _ _ hraw]
    simp [hp, hs]
  · rw [round_eq]
    norm_num

/-- The rate-limiter state of `monitorAria2cProgress`
(src/unnamed/part_000:280-281): the percentage of the last emitted log
(`lastProgress`, initially 0) and the time of the last emitted log
(`lastLogTime`, initially the monitor's start time). Times are seconds as
rationals. -/
structure MonitorLogState where
  lastProgress : ℚ
  lastLogTime : ℚ
deriving DecidableEq, Repr

/-- The initial rate-limiter state: `lastProgress := float64(0)`,
`lastLogTime := time.Now()` where `t0` is the monitor's start time. -/
def monitorInit (t0 : ℚ) : MonitorLogState := ⟨0, t0⟩

/-- One parsed progress line through the rate limiter
(src/unnamed/part_000:318-328): logs iff the configured interval has elapsed
since `lastLogTime` and the percentage differs from `lastProgress`
(`time.Since(lastLogTime) >= m.dlConfig.ProgressUpdateInterval && progress !=
lastProgress`), updating both fields exactly when it logs. Returns the new
state and whether a log line was emitted. -/
def progressLogStep (interval : ℚ) (st : MonitorLogState) (now progress : ℚ) :
    MonitorLogState × Bool :=
  if interval ≤ now - st.lastLogTime ∧ progress ≠ st.lastProgress then
    (⟨progress, now⟩, true)
  else (st, false)

/-- The rate limiter over a sequence of parsed progress lines, each an
(arrival time, percentage) pair: the list of emission decisions, in order. -/
def runProgressLog (interval : ℚ) : MonitorLogState → List (ℚ × ℚ) → List Bool
  | _, [] => []
  | st, (t, p) :: rest =>
    (progressLogStep interval st t p).2 ::
      runProgressLog interval (progressLogStep interval st t p).1 rest

/-- The rate-limiter state after a sequence of parsed progress lines. -/
def logStateAfter (interval : ℚ) (st : MonitorLogState) (events : List (ℚ × ℚ)) :
    MonitorLogState :=
  events.foldl (fun s e => (progressLogStep interval s e.1 e.2).1) st

/-- The (time, percentage) pairs of the events whose log was emitted. -/
def emittedEvents (interval : ℚ) (st : MonitorLogState) (events : List (ℚ × ℚ)) :
    List (ℚ × ℚ) :=
  (events.zip (runProgressLog interval st events)).filterMap
    (fun ep => if ep.2 then some ep.1 else none)

theorem runProgressLog_append (interval : ℚ) (st : MonitorLogState)
    (xs ys : List (ℚ × ℚ)) :
    runProgressLog interval st (xs ++ ys)
      = runProgressLog interval st xs
          ++ runProgressLog interval (logStateAfter interval st xs) ys := by
  induction xs generalizing st with
  | nil => rfl
  | cons x rest ih =>
    obtain ⟨t, p⟩ := x
    show (progressLogStep interval st t p).2 ::
        runProgressLog interval (progressLogStep interval st t p).1 (rest ++ ys) = _
    rw [ih]
    rfl

theorem runProgressLog_length (interval : ℚ) (st : MonitorLogState)
    (events : List (ℚ × ℚ)) :
    (runProgressLog interval st events).length = events.length := by
  induction events generalizing st with
  | nil => rfl
  | cons x rest ih =>
    obtain ⟨t, p⟩ := x
    simp [runProgressLog, ih]

theorem progressLogStep_fst_of_emit (interval : ℚ) (st : MonitorLogState)
    (t p : ℚ) (h : (progressLogStep interval st t p).2 = true) :
    (progressLogStep interval st t p).1 = ⟨p, t⟩ := by
  by_cases hc : interval ≤ t - st.lastLogTime ∧ p ≠ st.lastProgress
  · simp [progressLogStep, hc]
  · simp [progressLogStep, hc] at h

theorem progressLogStep_fst_of_skip (interval : ℚ) (st : MonitorLogState)
    (t p : ℚ) (h : (progressLogStep interval st t p).2 = false) :
    (progressLogStep interval st t p).1 = st := by
  by_cases hc : interval ≤ t - st.lastLogTime ∧ p ≠ st.lastProgress
  · simp [progressLogStep, hc] at h
  · simp [progressLogStep, hc]

/-- The rate-limiter state always equals the (percentage, time) of the last
emitted log, or the starting state if nothing has been emitted yet. -/
theorem logStateAfter_eq_lastEmitted (interval : ℚ) (st : MonitorLogState)
    (events : List (ℚ × ℚ)) :
    logStateAfter interval st events
      = (match (emittedEvents interval st events).getLast? with
          | some e => ⟨e.2, e.1⟩
          | none => st) := by
  induction events generalizing st with
  | nil => rfl
  | cons x rest ih =>
    obtain ⟨t, p⟩ := x
    have hstep : logStateAfter interval st ((t, p) :: rest)
        = logStateAfter interval (progressLogStep interval st t p).1 rest := rfl
    have hem : emittedEvents interval st ((t, p) :: rest)
        = (if (progressLogStep interval st t p).2 then [(t, p)] else [])
            ++ emittedEvents interval (progressLogStep interval st t p).1 rest := by
      simp only [emittedEvents, runProgressLog, List.zip_cons_cons, List.filterMap_cons]
      split_ifs with h <;> simp [h]
    rw [hstep, hem, ih]
    cases hrest : (emittedEvents interval (progressLogStep interval st t p).1 rest).getLast? with
    | some e =>
      have hne : emittedEvents interval (progressLogStep interval st t p).1 rest ≠ [] := by
        intro hcon
        rw [hcon] at hrest
        simp [List.getLast?] at hrest
      rw [List.getLast?_append_of_ne_nil _ hne, hrest]
    | none =>
      have hnil : emittedEvents interval (progressLogStep interval st t p).1 rest = [] := by
        cases hh : emittedEvents interval (progressLogStep interval st t p).1 rest with
        | nil => rfl
        | cons a as => rw [hh] at hrest; simp [List.getLast?] at hrest
      rw [hnil, List.append_nil]
      cases hb : (progressLogStep interval st t p).2 with
      | true =>
        rw [progressLogStep_fst_of_emit interval st t p hb]
        rfl
      | false =>
        rw [progressLogStep_fst_of_skip interval st t p hb]
        rfl

/-- Claim C7: a parsed progress line is logged iff both the configured
interval has elapsed since the last emitted log and its percentage differs
from the last emitted log's percentage, where "the last emitted log" is
characterized as the last event of the run so far whose log was emitted (or
the monitor's start state when there is none). The first conjunct gives the
emission decision of the event following any prefix of the stream, the second
identifies the state it is compared against. -/
theorem C7_progress_rate_limiting (interval t0 : ℚ) (pre : List (ℚ × ℚ))
    (t p : ℚ) (rest : List (ℚ × ℚ)) :
    (runProgressLog interval (monitorInit t0) (pre ++ (t, p) :: rest)).get? pre.length
      = some (decide (interval ≤ t - (logStateAfter interval (monitorInit t0) pre).lastLogTime
          ∧ p ≠ (logStateAfter interval (monitorInit t0) pre).lastProgress)) ∧
    logStateAfter interval (monitorInit t0) pre
      = (match (emittedEvents interval (monitorInit t0) pre).getLast? with
          | some e => ⟨e.2, e.1⟩
          | none => monitorInit t0) := by
  refine ⟨?_, logStateAfter_eq_lastEmitted interval (monitorInit t0) pre⟩
  rw [runProgressLog_append]
  rw [List.get?_append_right (by rw [runProgressLog_length])]
  rw [runProgressLog_length]
  simp only [Nat.sub_self, runProgressLog, List.get?]
  congr 1
  simp only [progressLogStep]
  split_ifs with h <;> simp [h]

/-- The transfer lifecycle states (`TransferLifecyclePending`, ...,
`TransferLifecycleCancelled`). -/
inductive TransferLifecycle where
  | pending
  | downloading
  | completed
  | failed
  | cancelled
deriving DecidableEq, Repr

/-- The fields of `TransferContext` read or written by the code under
verification: identity, display name, lifecycle state, byte totals, and start
time (seconds as a rational; `0` models the zero `time.Time`, so
`StartTime.IsZero()` is `startTime = 0`). -/
structure TransferContext where
  id : Int
  name : String
  state : TransferLifecycle
  totalSize : Int
  downloadedSize : Int
  startTime : ℚ
deriving DecidableEq, Repr

/-- The JSON view `DownloadInfo` built by the dashboard handler
(src/internal/server/dashboard.go:13-20). -/
structure DownloadInfo where
  name : String
  progressPercent : ℚ
  downloadedMB : ℚ
  totalMB : ℚ
  speedMBps : ℚ
  eta : String
deriving DecidableEq, Repr

/-- Go `int(x)` on a float: truncation toward zero. -/
def goIntOfRat (q : ℚ) : Int :=
  if q < 0 then -Rat.floor (-q) else Rat.floor q

/-- The per-transfer body of the `GetAllTransfers` visitor in
`handleDashboardAPI` (src/internal/server/dashboard.go:33-61), for a context
that passed the filter: derives MB figures and percent from `DownloadedSize`
and `TotalSize`, and computes speed and ETA only when the start time is
non-zero, some bytes are downloaded, the elapsed time is positive and the
speed is positive, keeping the zero speed and the "calculating..." ETA
otherwise. `now` is the wall-clock instant of the request. -/
def mkDownloadInfo (now : ℚ) (ctx : TransferContext) : DownloadInfo :=
  let downloadedMB := (ctx.downloadedSize : ℚ) / 1024 / 1024
  let totalMB := (ctx.totalSize : ℚ) / 1024 / 1024
  let progressPercent := (ctx.downloadedSize : ℚ) / (ctx.totalSize : ℚ) * 100
  let se :=
    if ¬ctx.startTime = 0 ∧ 0 < ctx.downloadedSize then
      let elapsed := now - ctx.startTime
      if 0 < elapsed then
        let speedMBps := downloadedMB / elapsed
        let remainingMB := totalMB - downloadedMB
        if 0 < speedMBps then
          (speedMBps, formatDuration (goIntOfRat (remainingMB / speedMBps)))
        else (speedMBps, "calculating...")
      else ((0 : ℚ), "calculating...")
    else ((0 : ℚ), "calculating...")
  { name := ctx.name, progressPercent := progressPercent,
    downloadedMB := downloadedMB, totalMB := totalMB,
    speedMBps := se.1, eta := se.2 }

/-- Translation of `handleDashboardAPI`
(src/internal/server/dashboard.go:23-67): visit every transfer context in
registry order, appending a `DownloadInfo` to the response exactly for the
contexts in `Downloading` state with a positive total size. The visitor takes
each context's read lock and never writes it, so the registry itself is an
unchanged input here. -/
def handleDashboardAPI (now : ℚ) (transfers : List TransferContext) :
    List DownloadInfo :=
  transfers.foldl
    (fun acc ctx =>
      if ctx.state = TransferLifecycle.downloading ∧ 0 < ctx.totalSize then
        acc ++ [mkDownloadInfo now ctx]
      else acc)
    []

theorem handleDashboardAPI_foldl (now : ℚ) (transfers : List TransferContext) :
    ∀ acc : List DownloadInfo,
      transfers.foldl
        (fun acc ctx =>
          if ctx.state = TransferLifecycle.downloading ∧ 0 < ctx.totalSize then
            acc ++ [mkDownloadInfo now ctx]
          else acc)
        acc
      = acc ++ (transfers.filter
          (fun ctx => decide (ctx.state = TransferLifecycle.downloading
            ∧ 0 < ctx.totalSize))).map (mkDownloadInfo now) := by
  induction transfers with
  | nil => simp
  | cons c rest ih =>
    intro acc
    by_cases hc : c.state = TransferLifecycle.downloading ∧ 0 < c.totalSize
    · simp [List.foldl_cons, if_pos hc, List.filter_cons, decide_eq_true hc, ih,
        List.append_assoc]
    · simp only [List.foldl_cons, if_neg hc, List.filter_cons, ih]
      rw [decide_eq_false hc]
      simp

/-- Claim C8: the dashboard handler includes a transfer exactly when its state
is `Downloading` and its `TotalSize` is positive, and each included entry is a
pure function of the request instant and the context's `Name`,
`DownloadedSize`, `TotalSize` and `StartTime` fields alone (two contexts that
agree on those four fields yield the same entry), the registry itself being an
unchanged input of the pure handler. -/
theorem C8_dashboard_filter (now : ℚ) (transfers : List TransferContext) :
    handleDashboardAPI now transfers
      = (transfers.filter
          (fun ctx => decide (ctx.state = TransferLifecycle.downloading
            ∧ 0 < ctx.totalSize))).map (mkDownloadInfo now) ∧
    ∀ c1 c2 : TransferContext, c1.name = c2.name →
      c1.downloadedSize = c2.downloadedSize → c1.totalSize = c2.totalSize →
      c1.startTime = c2.startTime →
      mkDownloadInfo now c1 = mkDownloadInfo now c2 := by
  constructor
  · rw [handleDashboardAPI, handleDashboardAPI_foldl]
    rfl
  · intro c1 c2 h1 h2 h3 h4
    obtain ⟨i1, n1, s1, t1, d1, st1⟩ := c1
    obtain ⟨i2, n2, s2, t2, d2, st2⟩ := c2
    simp only at h1 h2 h3 h4
    subst h1
    subst h2
    subst h3
    subst h4
    rfl

/-- Claim C9: `formatDuration` maps 0 to "0s", 125 to "2m5s", 3700 to "1h1m",
and every negative second count to "unknown". -/
theorem C9_formatDuration_vectors :
    formatDuration 0 = "0s" ∧ formatDuration 125 = "2m5s" ∧
    formatDuration 3700 = "1h1m" ∧
    ∀ s : Int, s < 0 → formatDuration s = "unknown" := by
  refine ⟨by decide, by decide, by decide, ?_⟩
  intro s hs
  unfold formatDuration
  rw [if_pos hs]

/-- The per-job `DownloadState` fields consumed by `downloadFile`. -/
structure DownloadState where
  fileID : Int
  name : String
  transferID : Int
  startTime : ℚ
deriving DecidableEq, Repr

/-- The outcomes of the external effects one run of `downloadFile`
(src/unnamed/part_000:129-271) depends on, in program order: the Put.io URL
resolution, the target-directory creation, the two pipe creations, the
subprocess start, whether the cancellation context had fired by the time
`cmd.Wait` returned, the subprocess exit error, and the final `os.Stat` of
the downloaded file (its size on success). Each `Option String` is the error
text (`none` for success). -/
structure DownloadFileEnv where
  urlResult : Except String String
  mkdirErr : Option String
  stdoutPipeErr : Option String
  stderrPipeErr : Option String
  startErr : Option String
  ctxCancelled : Bool
  cmdErr : Option String
  statResult : Except String Int
deriving Repr

/-- `m.coordinator.GetTransferContext(transferID)`: first registry entry with
the id, with the found flag encoded as `Option`. -/
def getTransferContext (coord : List TransferContext) (id : Int) :
    Option TransferContext :=
  coord.find? (fun tc => tc.id = id)

/-- `transferCtx.DownloadedSize += totalSize` on the context
`GetTransferContext` returned: the first registry entry with the id. -/
def addDownloadedSize : List TransferContext → Int → Int → List TransferContext
  | [], _, _ => []
  | tc :: rest, id, size =>
    if tc.id = id then { tc with downloadedSize := tc.downloadedSize + size } :: rest
    else tc :: addDownloadedSize rest id size

/-- Translation of `downloadFile` (src/unnamed/part_000:129-271) over the
effect outcomes in `env`, returning the coordinator registry after the run
and the returned error (`none` is the `nil` success return). The filesystem
preparation of the target path (lines 150-173) only logs and never changes
the return value or the registry, so it has no footprint here; the error
texts are the `fmt.Errorf` wraps of the corresponding branches. -/
def downloadFile (env : DownloadFileEnv) (coord : List TransferContext)
    (st : DownloadState) : List TransferContext × Option GoError :=
  match env.urlResult with
  | .error e => (coord, some (.plain ("failed to get download URL: " ++ e)))
  | .ok _url =>
    match env.mkdirErr with
    | some e => (coord, some (.plain ("failed to create directory: " ++ e)))
    | none =>
      match env.stdoutPipeErr with
      | some e => (coord, some (.plain ("failed to create stdout pipe: " ++ e)))
      | none =>
        match env.stderrPipeErr with
        | some e => (coord, some (.plain ("failed to create stderr pipe: " ++ e)))
        | none =>
          match env.startErr with
          | some e => (coord, some (.plain ("failed to start aria2c: " ++ e)))
          | none =>
            if env.ctxCancelled then
              (coord, some (.cancelled st.name "download stopped"))
            else
              match env.cmdErr with
              | some e => (coord, some (.plain ("aria2c failed: " ++ e)))
              | none =>
                match env.statResult with
                | .error e =>
                  (coord, some (.plain ("failed to verify downloaded file: " ++ e)))
                | .ok totalSize =>
                  match getTransferContext coord st.transferID with
                  | some _ => (addDownloadedSize coord st.transferID totalSize, none)
                  | none => (coord, none)

/-- Claim C10: when the success path of `downloadFile` reaches the transfer
update but `GetTransferContext` reports the transfer as not found, the
function still returns success (`nil`) and the coordinator registry — every
transfer's `DownloadedSize` included — is unchanged: the completed file's
size is silently dropped from every aggregate, and nothing else of the
success path changes. -/
theorem C10_missing_transfer_frame (env : DownloadFileEnv)
    (coord : List TransferContext) (st : DownloadState) (u : String) (sz : Int)
    (hurl : env.urlResult = Except.ok u) (hmk : env.mkdirErr = none)
    (hso : env.stdoutPipeErr = none) (hse : env.stderrPipeErr = none)
    (hstart : env.startErr = none) (hcancel : env.ctxCancelled = false)
    (hcmd : env.cmdErr = none) (hstat : env.statResult = Except.ok sz)
    (hnf : getTransferContext coord st.transferID = none) :
    downloadFile env coord st = (coord, none) := by
  simp [downloadFile, hurl, hmk, hso, hse, hstart, hcancel, hcmd, hstat, hnf]

/-- A concrete success-path environment whose transfer id is absent from the
registry. -/
def witMissingEnv : DownloadFileEnv :=
  { urlResult := .ok "https://putio.example/dl/7",
    mkdirErr := none, stdoutPipeErr := none, stderrPipeErr := none,
    startErr := none, ctxCancelled := false, cmdErr := none,
    statResult := .ok 2048 }

/-- A registry with one transfer (id 5) and a job whose transfer id is 9. -/
def witMissingCoord : List TransferContext :=
  [⟨5, "other", TransferLifecycle.downloading, 1000, 10, 3⟩]

/-- The job state for the missing-transfer witness run. -/
def witMissingState : DownloadState := ⟨7, "file.bin", 9, 2⟩

/-- Witness for `C10_missing_transfer_frame` at a concrete environment,
registry and job. -/
theorem C10_missing_transfer_frame_witness :
    downloadFile witMissingEnv witMissingCoord witMissingState
      = (witMissingCoord, none) :=
  C10_missing_transfer_frame witMissingEnv witMissingCoord witMissingState
    "https://putio.example/dl/7" 2048 rfl rfl rfl rfl rfl rfl rfl rfl (by decide)

/-- The shared and worker-local data of two workers each executing the
unsynchronized statement `transferCtx.DownloadedSize += totalSize`
(src/unnamed/part_000:251) against the same transfer context: the shared
`DownloadedSize` field and each worker's register holding the value it read.
No lock is taken around this statement (the context's `Mu`, which the
dashboard's readers take, is not acquired here), so the two reads and two
writes of the compound assignment may interleave freely. -/
structure RaceState where
  downloadedSize : Int
  reg1 : Int
  reg2 : Int
deriving DecidableEq, Repr

/-- One atomic step of either worker's compound assignment: read the shared
field into the worker's register, or write back register + file size. -/
inductive RaceStep where
  | read1
  | write1
  | read2
  | write2
deriving DecidableEq, Repr

/-- Execute one step, where worker i adds file size `si`. -/
def raceStepExec (s1 s2 : Int) : RaceState → RaceStep → RaceState
  | st, .read1 => { st with reg1 := st.downloadedSize }
  | st, .write1 => { st with downloadedSize := st.reg1 + s1 }
  | st, .read2 => { st with reg2 := st.downloadedSize }
  | st, .write2 => { st with downloadedSize := st.reg2 + s2 }

/-- Execute an interleaving of the two compound assignments. -/
def raceRun (s1 s2 : Int) (sched : List RaceStep) (st : RaceState) : RaceState :=
  sched.foldl (raceStepExec s1 s2) st

/-- Claim C2 fails on the code: `transferCtx.DownloadedSize += totalSize`
takes no lock, so two workers completing files of 100 and 200 bytes for the
same transfer may both read `DownloadedSize = 0` before either writes, and
the transfer ends with `DownloadedSize = 200` — one success's size is lost
and the exact-sum property `DownloadedSize = 100 + 200` is violated, while
any serialized execution of the same two updates does reach the exact sum. -/
theorem C2_lost_update :
    (raceRun 100 200 [.read1, .read2, .write1, .write2] ⟨0, 0, 0⟩).downloadedSize = 200 ∧
    (200 : Int) ≠ 100 + 200 ∧
    (raceRun 100 200 [.read1, .write1, .read2, .write2] ⟨0, 0, 0⟩).downloadedSize = 100 + 200 := by
  refine ⟨rfl, by decide, rfl⟩

end Plundrio
